import Mathlib

/-!
Shallow embedding of the governance signal pipeline
(`intelligence_gate.py`, `confidence.py`, `actuation_threshold.py`,
`invariants.py`, `intelligence_layer.py`).

Python floats are modelled as exact rationals (`ℚ`); Python's
`round(x, k)` is modelled as rounding `x * 10^k` to the nearest integer.
Python dicts of heterogeneous values are modelled as association lists of
`PyVal`; dict truthiness is non-emptiness.  Strings are ASCII in every
input the pipeline manipulates, so Lean's `String` operations model
Python's.
-/

/-- A Python value as it appears in the dict-shaped records the pipeline
passes around: floats/ints (as `ℚ`), strings, booleans, lists, `None`. -/
inductive PyVal where
  | num (q : ℚ)
  | str (s : String)
  | bool (b : Bool)
  | list (l : List PyVal)
  | none

/-- A Python dict with string keys (association list, first binding wins). -/
def Dict := List (String × PyVal)

/-- `d.get(k)` / `d[k]` lookup: `Option.none` models a missing key. -/
def dget (d : Dict) (k : String) : Option PyVal :=
  (d.find? (fun p => p.1 == k)).map (fun p => p.2)

/-- `d.get(k, default)`. -/
def dgetD (d : Dict) (k : String) (v : PyVal) : PyVal :=
  (dget d k).getD v

/-- `k in d`. -/
def dmem (d : Dict) (k : String) : Bool :=
  (d.find? (fun p => p.1 == k)).isSome

/-- Python truthiness of a value. -/
def pyTruthy : PyVal → Bool
  | .num q => q != 0
  | .str s => s != ""
  | .bool b => b
  | .list l => !l.isEmpty
  | .none => false

/-- Python numeric coercion used by comparisons: floats/ints are numbers,
`True`/`False` compare as `1`/`0`; anything else raises (`Option.none`). -/
def asNum : PyVal → Option ℚ
  | .num q => some q
  | .bool b => some (if b then 1 else 0)
  | _ => Option.none

/-- `clamp01` from `intelligence_layer.py`: `max(0.0, min(1.0, x))`. -/
def clamp01 (x : ℚ) : ℚ := max 0 (min 1 x)

/-- Python `round(x, k)` modelled over `ℚ`: round `x * 10^k` to the
nearest integer (the tie-breaking rule is irrelevant to every theorem
below, no computation here lands on a tie). -/
def roundTo (k : ℕ) (x : ℚ) : ℚ := ((round (x * 10 ^ k) : ℤ) : ℚ) / 10 ^ k

/-- Python whitespace (`str.strip` / `str.split`), ASCII fragment. -/
def pyIsSpace (c : Char) : Bool :=
  c == ' ' || c == '\t' || c == '\n' || c == '\r' || c == '\x0b' || c == '\x0c'

/-- Python `str.strip()`. -/
def pyStrip (s : String) : String :=
  ⟨((s.toList.dropWhile pyIsSpace).reverse.dropWhile pyIsSpace).reverse⟩

/-- Python `str.split()`: split on whitespace runs, dropping empties. -/
def pySplit (s : String) : List String :=
  (s.split (fun c => pyIsSpace c)).filter (fun t => t != "")

/-- The last `n` elements of a list, in order.  Models both Python's
`l[-n:]` slice and the eviction behaviour of `deque(maxlen=n)`. -/
def lastN (n : ℕ) (l : List α) : List α := l.drop (l.length - n)

-- ============================================================
-- intelligence_gate.py
-- ============================================================

/-- `ELYRIA_ENTROPY_MAX` (default `0.30`; the deployment override is
configuration, the theorems use the default). -/
def ENTROPY_MAX : ℚ := 0.30

/-- `WINDOW_SIZE = 10`. -/
def WINDOW_SIZE : ℕ := 10

/-- The mutable state of an `IntelligenceGate` instance:
`entropy_window = deque(maxlen=10)`, `active_constraints`,
`identity_pressure`. -/
structure GateState where
  entropy_window : List ℚ
  active_constraints : List String
  identity_pressure : ℚ

/-- The gate as constructed by `IntelligenceGate.__init__`. -/
def initGate : GateState :=
  { entropy_window := [], active_constraints := [], identity_pressure := 0 }

/-- The snapshot record `process` returns. -/
structure Snapshot where
  entropy : ℚ
  mean_entropy : ℚ
  active_constraints : List String
  identity_pressure : ℚ

/-- `measure_entropy(text)`: distinct characters / length, `0` for empty. -/
def measure_entropy (text : String) : ℚ :=
  if text = "" then 0
  else (text.toList.dedup.length : ℚ) / (text.toList.length : ℚ)

/-- `IntelligenceGate.process(text)`: strip, measure entropy, push into the
capacity-10 FIFO window, recompute the mean and the stabilize constraint,
emit the snapshot and the dampening factor. -/
def gateProcess (g : GateState) (text : String) : GateState × Snapshot × ℚ :=
  let signal := pyStrip text
  let entropy := measure_entropy signal
  let window := lastN WINDOW_SIZE (g.entropy_window ++ [entropy])
  let mean_entropy := if window.isEmpty then 0 else window.sum / (window.length : ℚ)
  let constraints := if mean_entropy > ENTROPY_MAX then ["stabilize"] else []
  let snapshot : Snapshot :=
    { entropy := roundTo 4 entropy
      mean_entropy := roundTo 4 mean_entropy
      active_constraints := constraints
      identity_pressure := roundTo 4 g.identity_pressure }
  let dampening : ℚ := if constraints.contains "stabilize" then 0.7 else 1.0
  ({ g with entropy_window := window, active_constraints := constraints },
   snapshot, dampening)

/-- Run a sequence of `process` calls, keeping the last snapshot. -/
def runGate (g : GateState) (texts : List String) : GateState × Option Snapshot :=
  texts.foldl
    (fun p t =>
      let r := gateProcess p.1 t
      (r.1, some r.2.1))
    (g, Option.none)

/-- The entropy sample a call to `process text` pushes into the window. -/
def sampleOf (text : String) : ℚ := measure_entropy (pyStrip text)

/-- Arithmetic mean of a list of rationals (0 on the empty list). -/
def meanQ (l : List ℚ) : ℚ := l.sum / (l.length : ℚ)

-- ============================================================
-- confidence.py
-- ============================================================

/-- `statusIsClean`: the Python comparison `d.get("status", "CLEAN") ==
"CLEAN"` (a missing key defaults clean; a non-string value is `≠`). -/
def statusIsClean (d : Dict) : Bool :=
  match dget d "status" with
  | some (.str s) => s == "CLEAN"
  | some _ => false
  | Option.none => true

/-- `compute_confidence(gate_snapshot?, invariant_status?)` from
`confidence.py`.  A present snapshot always carries its fields (the gate
emits all four), so the typed `Snapshot` stands for the snapshot dict. -/
def compute_confidence (gate_snapshot : Option Snapshot)
    (invariant_status : Option Dict) : ℚ :=
  let entropy := match gate_snapshot with
    | some s => s.mean_entropy
    | Option.none => 0
  let stabilized := match gate_snapshot with
    | some s => s.active_constraints.contains "stabilize"
    | Option.none => false
  let invariant_clean := match invariant_status with
    | some d => statusIsClean d
    | Option.none => true
  let confidence : ℚ := 1
  let confidence := confidence - min entropy 1 * 0.4
  let confidence := if stabilized then confidence - 0.2 else confidence
  let confidence := if invariant_clean then confidence else 0
  roundTo 3 (max 0 (min confidence 1))

-- ============================================================
-- actuation_threshold.py
-- ============================================================

/-- `DEFAULT_CONFIDENCE_THRESHOLD = 0.75`. -/
def DEFAULT_CONFIDENCE_THRESHOLD : ℚ := 0.75

/-- The `{"decision": ..., "reason": ...}` record `may_act` returns. -/
structure Decision where
  decision : String
  reason : String
deriving DecidableEq

/-- `statusNotClean`: the Python comparison `d.get("status") != "CLEAN"`
in `may_act` — no default, so a dict with no `"status"` key yields
`None`, which is `!= "CLEAN"` (and any non-string value is `!=` too):
only the exact string value `"CLEAN"` passes. -/
def statusNotClean (d : Dict) : Bool :=
  match dget d "status" with
  | some (.str s) => s != "CLEAN"
  | some _ => true
  | Option.none => true

/-- `may_act(confidence, invariant_status, policy_snapshot?, threshold)`:
invariants are absolute (`get("status") != "CLEAN"` with no default, so
a status-less dict denies), then the confidence gate, then the policy
gate (`if policy_snapshot:` is dict truthiness, so an empty dict skips
it; `policy_snapshot.get("allow_action", True)` is tested for
truthiness). -/
def may_act (confidence : ℚ) (invariant_status : Dict)
    (policy_snapshot : Option Dict)
    (threshold : ℚ := DEFAULT_CONFIDENCE_THRESHOLD) : Decision :=
  if statusNotClean invariant_status then
    { decision := "DENY", reason := "invariants not clean" }
  else if confidence < threshold then
    { decision := "DENY", reason := "confidence below threshold" }
  else
    match policy_snapshot with
    | some p =>
        if !p.isEmpty then
          if !(pyTruthy (dgetD p "allow_action" (.bool true))) then
            { decision := "DENY", reason := "policy prohibits action" }
          else
            { decision := "ALLOW", reason := "all thresholds satisfied" }
        else
          { decision := "ALLOW", reason := "all thresholds satisfied" }
    | Option.none =>
        { decision := "ALLOW", reason := "all thresholds satisfied" }

-- ============================================================
-- invariants.py
-- ============================================================

/-- One invariant predicate applied to an event record; `Option.none`
models the predicate raising (counted as a violation by `verify`). -/
def InvRule := Dict → Option Bool

/-- `entropy_bound`: `0.0 <= e["entropy"] <= 1.0` (missing key or
non-numeric value raises). -/
def entropy_bound : InvRule := fun e =>
  match dget e "entropy" with
  | some v => (asNum v).map (fun q => decide (0 ≤ q ∧ q ≤ 1))
  | Option.none => Option.none

/-- `mean_entropy_bound`: `0.0 <= e["mean_entropy"] <= 1.0`. -/
def mean_entropy_bound : InvRule := fun e =>
  match dget e "mean_entropy" with
  | some v => (asNum v).map (fun q => decide (0 ≤ q ∧ q ≤ 1))
  | Option.none => Option.none

/-- `dampening_range`: `0.0 < e["dampening"] <= 1.0`. -/
def dampening_range : InvRule := fun e =>
  match dget e "dampening" with
  | some v => (asNum v).map (fun q => decide (0 < q ∧ q ≤ 1))
  | Option.none => Option.none

/-- `no_identity_write`: `"identity_pressure" in e` (never raises). -/
def no_identity_write : InvRule := fun e => some (dmem e "identity_pressure")

/-- `constraints_explicit`: `isinstance(e.get("active_constraints"), list)`
(never raises; a missing key gives `None`, which is not a list). -/
def constraints_explicit : InvRule := fun e =>
  some (match dget e "active_constraints" with
        | some (.list _) => true
        | _ => false)

/-- `INVARIANTS`, in dict insertion order. -/
def INVARIANTS : List (String × InvRule) :=
  [("entropy_bound", entropy_bound),
   ("mean_entropy_bound", mean_entropy_bound),
   ("dampening_range", dampening_range),
   ("no_identity_write", no_identity_write),
   ("constraints_explicit", constraints_explicit)]

/-- The outcome of `verify()`: exit code 1 with "NO DATA — invariants
unverifiable", exit code 2 with the violation list, or exit code 0 CLEAN. -/
inductive VerifyOutcome where
  | unverifiable
  | violations (fails : List (ℕ × String))
  | clean
deriving DecidableEq

/-- The full failure list `verify` accumulates: every `(event index,
invariant name)` pair whose rule returns false or raises, scanning every
event against every invariant. -/
def verifyFailures (events : List Dict) : List (ℕ × String) :=
  (events.enum).flatMap (fun ie =>
    INVARIANTS.filterMap (fun nr =>
      match nr.2 ie.2 with
      | some true => Option.none
      | _ => some (ie.1, nr.1)))

/-- `verify()` from `invariants.py` over an explicit event list. -/
def verify (events : List Dict) : VerifyOutcome :=
  if events.isEmpty then .unverifiable
  else
    let failures := verifyFailures events
    if !failures.isEmpty then .violations failures
    else .clean

-- ============================================================
-- intelligence_layer.py : text heuristics
-- ============================================================

/-- Python `\w` (ASCII fragment): letters, digits, underscore. -/
def isWordChar (c : Char) : Bool := c.isAlphanum || c == '_'

/-- Scan a character list into maximal word runs, each paired with the
separator run immediately before it (the first separator may be empty). -/
def tokAux : List Char → List Char → List Char → List (List Char × List Char)
  | gap, run, [] => if run.isEmpty then [] else [(gap.reverse, run.reverse)]
  | gap, run, c :: cs =>
    if isWordChar c then tokAux gap (c :: run) cs
    else if run.isEmpty then tokAux (c :: gap) [] cs
    else (gap.reverse, run.reverse) :: tokAux [c] [] cs

/-- Word runs of a string with their preceding separators. -/
def wordTokens (s : String) : List (List Char × List Char) := tokAux [] [] s.toList

/-- Three consecutive equal word runs whose two inner separators are pure
whitespace. -/
def tripleScan : List (List Char × List Char) → Bool
  | (_, t1) :: (g2, t2) :: (g3, t3) :: rest =>
    (t1 == t2 && t2 == t3 && g2.all pyIsSpace && g3.all pyIsSpace) ||
      tripleScan ((g2, t2) :: (g3, t3) :: rest)
  | _ => false

/-- `_RE_REPEAT.search(s)`: the regex `\b(\w+)\b(?:\s+\1\b){2,}` matches
iff some word run is immediately repeated at least three times with only
whitespace between (both call sites pass lowercased text, so the
`IGNORECASE` flag reduces to exact run equality). -/
def hasTripleRepeat (s : String) : Bool := tripleScan (wordTokens s)

/-- Non-overlapping occurrence counting (`str.count`): after a match,
scanning resumes past the matched span (`skip` counts positions still
inside the previous match). -/
def countOccAux (pat : List Char) : List Char → ℕ → ℕ
  | [], _ => 0
  | c :: rest, skip =>
    if skip > 0 then countOccAux pat rest (skip - 1)
    else if !pat.isEmpty && pat.isPrefixOf (c :: rest) then
      1 + countOccAux pat rest (pat.length - 1)
    else countOccAux pat rest 0

/-- Python `s.count(pat)`. -/
def pyCount (s pat : String) : ℕ := countOccAux pat.toList s.toList 0

/-- `estimate_recursion(text)` from `intelligence_layer.py`. -/
def estimate_recursion (text : String) : ℚ :=
  let t := text.toLower
  let repeats : ℚ := if hasTripleRepeat t then 1.0 else 0.0
  let self_ref : ℕ := pyCount t "again" + pyCount t "repeat" + pyCount t "as i said"
  clamp01 (0.6 * repeats + 0.1 * (self_ref : ℚ))

/-- `estimate_coherence(text)` from `intelligence_layer.py`.  The module
attribute `estimate_coherence._last_tokens` (the previous call's token
set, a hidden call-order carry) is threaded explicitly: the function takes
the carried set and returns the score together with the set carried to the
next call.  Token sets are deduplicated token lists. -/
def estimate_coherence (text : String) (last_tokens : List String) :
    ℚ × List String :=
  if pyStrip text = "" then (0, last_tokens)
  else
    let closure : ℚ :=
      if (pyStrip text).endsWith "." || (pyStrip text).endsWith "!"
          || (pyStrip text).endsWith "?" then 1.0 else 0.5
    let length_factor := clamp01 (((text.length : ℚ) - 80) / 400)
    let tokens := (pySplit text.toLower).dedup
    let overlap := (tokens.filter (fun w => last_tokens.contains w)).length
    let soft_penalty := clamp01 ((overlap : ℚ) / 20) * 0.15
    let hard_penalty : ℚ := if hasTripleRepeat text.toLower then 0.2 else 0.0
    let repeat_penalty := soft_penalty + hard_penalty
    (clamp01 (0.6 * closure + 0.4 * length_factor - repeat_penalty), tokens)

-- ============================================================
-- SHA-256 (hashlib.sha256), FIPS 180-4, over byte lists
-- ============================================================

/-- Truncate to a 32-bit word. -/
def w32 (n : ℕ) : ℕ := n % 2 ^ 32

/-- 32-bit right rotation. -/
def rotr (n x : ℕ) : ℕ := w32 ((x >>> n) ||| (x <<< (32 - n)))

def bsig0 (x : ℕ) : ℕ := rotr 2 x ^^^ rotr 13 x ^^^ rotr 22 x
def bsig1 (x : ℕ) : ℕ := rotr 6 x ^^^ rotr 11 x ^^^ rotr 25 x
def ssig0 (x : ℕ) : ℕ := rotr 7 x ^^^ rotr 18 x ^^^ (x >>> 3)
def ssig1 (x : ℕ) : ℕ := rotr 17 x ^^^ rotr 19 x ^^^ (x >>> 10)
def chf (e f g : ℕ) : ℕ := (e &&& f) ^^^ ((e ^^^ 0xffffffff) &&& g)
def maj (a b c : ℕ) : ℕ := (a &&& b) ^^^ (a &&& c) ^^^ (b &&& c)

/-- The 64 SHA-256 round constants (FIPS 180-4, written in decimal). -/
def K64 : List ℕ :=
  [1116352408, 1899447441, 3049323471, 3921009573, 961987163, 1508970993,
   2453635748, 2870763221, 3624381080, 310598401, 607225278, 1426881987,
   1925078388, 2162078206, 2614888103, 3248222580, 3835390401, 4022224774,
   264347078, 604807628, 770255983, 1249150122, 1555081692, 1996064986,
   2554220882, 2821834349, 2952996808, 3210313671, 3336571891, 3584528711,
   113926993, 338241895, 666307205, 773529912, 1294757372, 1396182291,
   1695183700, 1986661051, 2177026350, 2456956037, 2730485921, 2820302411,
   3259730800, 3345764771, 3516065817, 3600352804, 4094571909, 275423344,
   430227734, 506948616, 659060556, 883997877, 958139571, 1322822218,
   1537002063, 1747873779, 1955562222, 2024104815, 2227730452, 2361852424,
   2428436474, 2756734187, 3204031479, 3329325298]

/-- The SHA-256 initial hash value (in decimal). -/
def sha256H0 : List ℕ :=
  [1779033703, 3144134277, 1013904242, 2773480762, 1359893119, 2600822924,
   528734635, 1541459225]

/-- Merkle–Damgård padding: `0x80`, zeros to 56 mod 64, 8-byte big-endian
bit length. -/
def sha256Pad (msg : List ℕ) : List ℕ :=
  let L := msg.length
  let zeros := (119 - L % 64) % 64
  let bitLen := 8 * L
  msg ++ [0x80] ++ List.replicate zeros 0 ++
    ((List.range 8).map (fun i => (bitLen >>> (8 * (7 - i))) % 256))

/-- Split into 64-byte blocks. -/
def toBlocks (l : List ℕ) : List (List ℕ) :=
  if h : l = [] then [] else l.take 64 :: toBlocks (l.drop 64)
termination_by l.length
decreasing_by
  simp only [List.length_drop]
  have := List.length_pos.mpr h
  omega

/-- Sixteen 32-bit big-endian words of a 64-byte block. -/
def wordsOfBlock (b : List ℕ) : List ℕ :=
  (List.range 16).map (fun i =>
    (b.getD (4 * i) 0) * 2 ^ 24 + (b.getD (4 * i + 1) 0) * 2 ^ 16 +
    (b.getD (4 * i + 2) 0) * 2 ^ 8 + b.getD (4 * i + 3) 0)

/-- Extend the 16 block words to the 64-word message schedule. -/
def sha256Schedule (ws : List ℕ) : List ℕ :=
  (List.range 48).foldl
    (fun w _ =>
      let n := w.length
      w ++ [w32 (ssig1 (w.getD (n - 2) 0) + w.getD (n - 7) 0 +
                 ssig0 (w.getD (n - 15) 0) + w.getD (n - 16) 0)])
    ws

/-- One compression round on the eight working variables. -/
def sha256Round (st : List ℕ) (kw : ℕ × ℕ) : List ℕ :=
  match st with
  | [a, b, c, d, e, f, g, h] =>
    let t1 := w32 (h + bsig1 e + chf e f g + kw.1 + kw.2)
    let t2 := w32 (bsig0 a + maj a b c)
    [w32 (t1 + t2), a, b, c, w32 (d + t1), e, f, g]
  | _ => st

/-- Compress one 64-byte block into the running hash value. -/
def sha256Compress (hs : List ℕ) (block : List ℕ) : List ℕ :=
  let ws := sha256Schedule (wordsOfBlock block)
  let st := (K64.zip ws).foldl sha256Round hs
  (hs.zip st).map (fun p => w32 (p.1 + p.2))

/-- The 256-bit digest as a natural number (big-endian word
concatenation in Horner form; `w32` is the identity on the 32-bit hash
words and keeps the range bound explicit). -/
def sha256Digest (msg : List ℕ) : ℕ :=
  ((((toBlocks (sha256Pad msg)).foldl sha256Compress sha256H0).take 8).foldl
    (fun acc h => acc * 2 ^ 32 + w32 h) 0)

/-- Lowercase hex character of a nibble. -/
def hexChar (n : ℕ) : Char :=
  if n < 10 then Char.ofNat (48 + n) else Char.ofNat (87 + n)

/-- `n` hex characters of `d`, most significant first. -/
def hexChars : ℕ → ℕ → List Char
  | 0, _ => []
  | n + 1, d => hexChars n (d / 16) ++ [hexChar (d % 16)]

/-- `.hexdigest()`: the 64 hex characters of the digest. -/
def hexdigest (d : ℕ) : String := ⟨hexChars 64 d⟩

-- ============================================================
-- intelligence_layer.py : trace hash and state machine
-- ============================================================

/-- Decimal rendering of a float value, modelling `repr` inside
`json.dumps` (integral values as `n.0`, otherwise at most 17 fractional
digits, trailing zeros stripped; the digit string's exact shape is
irrelevant to every theorem below). -/
def pyFloatRepr (q : ℚ) : String :=
  let sign := if q < 0 then "-" else ""
  let a := |q|
  let ip := (⌊a⌋).toNat
  let fd := (⌊(a - ⌊a⌋) * 10 ^ 17⌋).toNat
  let digits := Nat.toDigits 10 fd
  let padded := List.replicate (17 - digits.length) '0' ++ digits
  let trimmed := (padded.reverse.dropWhile (fun c => c == '0')).reverse
  let fracStr : String := if trimmed.isEmpty then "0" else ⟨trimmed⟩
  sign ++ toString ip ++ "." ++ fracStr

/-- `json.dumps({"K": K_hist, "R": R_hist, "t": turn_index},
sort_keys=True)`: keys in sorted order `K, R, t`, default separators. -/
def jsonTriple (K R : List ℚ) (t : ℤ) : String :=
  let jlist := fun (l : List ℚ) =>
    "[" ++ String.intercalate ", " (l.map pyFloatRepr) ++ "]"
  "\x7b\"K\": " ++ jlist K ++ ", \"R\": " ++ jlist R ++
    ", \"t\": " ++ toString t ++ "\x7d"

/-- `.encode()`: the serialized triple is ASCII, where UTF-8 is the
identity on code points. -/
def strToBytes (s : String) : List ℕ := s.toList.map Char.toNat

/-- `hashlib.sha256(json.dumps({...}, sort_keys=True).encode())
.hexdigest()[:16]` — the trace digest of `(K_hist, R_hist, turn_index)`. -/
def traceHash (K R : List ℚ) (t : ℤ) : String :=
  (hexdigest (sha256Digest (strToBytes (jsonTriple K R t)))).take 16

/-- The `ILState` dataclass. -/
structure ILState where
  K_t : ℚ
  R_t : ℚ
  K_hist : List ℚ
  R_hist : List ℚ
  Kt_slope_2 : ℚ
  turn_index : ℤ
  cooldown_active : Bool
  cooldown_turns_left : ℤ
  cooldown_exit_K : ℚ
  cooldown_min_turns : ℤ
  last_segment_turn : ℤ
  invariants : List (String × List String)
  trace_hash : String

/-- `ILState()` with the dataclass defaults. -/
def ILState.init : ILState :=
  { K_t := 1.0, R_t := 0.0, K_hist := [], R_hist := [], Kt_slope_2 := 0,
    turn_index := 0, cooldown_active := false, cooldown_turns_left := 0,
    cooldown_exit_K := 0.90, cooldown_min_turns := 2,
    last_segment_turn := -10, invariants := [], trace_hash := "" }

/-- The metrics record `update_state` returns. -/
structure Metrics where
  turn : ℤ
  K_t : ℚ
  R_t : ℚ
  Kt_slope_2 : ℚ
  cooldown : Bool
  trace_hash : String

/-- `update_state(state, text)` from `intelligence_layer.py`, with the
estimator's previous-token carry threaded explicitly (second argument and
second component of the result). -/
def update_state (state : ILState) (last_tokens : List String)
    (text : String) : ILState × List String × Metrics :=
  let KL := estimate_coherence text last_tokens
  let K := KL.1
  let R := estimate_recursion text
  let turn' := state.turn_index + 1
  let K_hist' := lastN 6 (state.K_hist ++ [K])
  let R_hist' := lastN 6 (state.R_hist ++ [R])
  let slope' : ℚ :=
    if K_hist'.length ≥ 3 then
      (K_hist'.getD (K_hist'.length - 1) 0 - K_hist'.getD (K_hist'.length - 3) 0) / 2
    else 0
  let hash' := traceHash K_hist' R_hist' turn'
  let ctl' :=
    if state.cooldown_active then state.cooldown_turns_left - 1
    else state.cooldown_turns_left
  let cooldown' :=
    if state.cooldown_active then
      if decide (turn' - state.last_segment_turn ≥ state.cooldown_min_turns)
          && decide (ctl' ≤ 0) && decide (K ≥ state.cooldown_exit_K) then
        false
      else true
    else state.cooldown_active
  let state' := { state with
    turn_index := turn', K_hist := K_hist', R_hist := R_hist',
    Kt_slope_2 := slope', K_t := K, R_t := R, trace_hash := hash',
    cooldown_turns_left := ctl', cooldown_active := cooldown' }
  (state', KL.2,
   { turn := turn', K_t := K, R_t := R, Kt_slope_2 := slope',
     cooldown := cooldown', trace_hash := hash' })

/-- Local boolean `acceleration_trigger` of `should_segment`. -/
def acceleration_trigger (state : ILState) : Bool :=
  decide (state.Kt_slope_2 < -0.15) && decide (state.R_t > 0.80)

/-- Local boolean `saturation_trigger` of `should_segment`. -/
def saturation_trigger (state : ILState) : Bool :=
  decide (state.R_t > 0.80) && decide (state.K_t < 0.45) &&
  decide (state.K_hist.length ≥ 3) &&
  (lastN 3 state.K_hist).all (fun k => decide (k < 0.45))

/-- `should_segment(state)` from `intelligence_layer.py`. -/
def should_segment (state : ILState) : Bool :=
  let trigger := acceleration_trigger state || saturation_trigger state
  if state.cooldown_active then trigger && decide (state.Kt_slope_2 < -0.30)
  else trigger

/-- `extract_invariants(buffer)`. -/
def extract_invariants (buffer : List String) : List (String × List String) :=
  let keep := ((lastN 8 buffer).map pyStrip).filter (fun line =>
    line.startsWith "-" || line.startsWith "#")
  [("constraints", keep.take 10)]

/-- `segment_now(state, buffer)`: the externally triggered
NORMAL→COOLDOWN transition (the seed-pack return value reuses fields
already on the state and is not needed by the claims). -/
def segment_now (state : ILState) (buffer : List String) : ILState :=
  { state with
    invariants := extract_invariants buffer,
    cooldown_active := true, cooldown_turns_left := 2,
    last_segment_turn := state.turn_index }

-- ============================================================
-- Spec-side accessors (the documented defaults of §4.5)
-- ============================================================

/-- The entropy input `compute_confidence` reads (default 0). -/
def snapEntropy : Option Snapshot → ℚ
  | some s => s.mean_entropy
  | Option.none => 0

/-- The stabilize flag `compute_confidence` reads (default false). -/
def snapStabilized : Option Snapshot → Bool
  | some s => s.active_constraints.contains "stabilize"
  | Option.none => false

/-- The invariant-cleanliness flag `compute_confidence` reads
(default true). -/
def invClean : Option Dict → Bool
  | some d => statusIsClean d
  | Option.none => true

/-- The spec's policy-gate predicate for `may_act`: a policy snapshot is
present (as a truthy dict) and disallows action. -/
def policyBlocks : Option Dict → Bool
  | some p => !p.isEmpty && !(pyTruthy (dgetD p "allow_action" (.bool true)))
  | Option.none => false

/-- `runGate` restarted from an arbitrary (state, last-snapshot) pair. -/
def runFrom (p : GateState × Option Snapshot) (texts : List String) :
    GateState × Option Snapshot :=
  texts.foldl
    (fun p t =>
      let r := gateProcess p.1 t
      (r.1, some r.2.1))
    p

/-- The state claimed by the spec's saturation example: `K_hist =
[0.5, 0.4, 0.3]`, `R_t = 0.9`, `K_t = 0.3`, slope `(0.3-0.5)/2 = -0.1`,
cooldown inactive. -/
def c3State : ILState :=
  { ILState.init with
    K_t := 0.3, R_t := 0.9, K_hist := [0.5, 0.4, 0.3], Kt_slope_2 := -0.1 }

/-- The example state repaired so that the last three `K_hist` entries
are all below 0.45 (with the slope recomputed by the update rule:
`(0.3-0.4)/2 = -0.05`). -/
def c3AmendedState : ILState :=
  { ILState.init with
    K_t := 0.3, R_t := 0.9, K_hist := [0.4, 0.4, 0.3], Kt_slope_2 := -0.05 }

/-- A state with cooldown active on which `should_segment` does fire. -/
def c4WitnessState : ILState :=
  { c3State with cooldown_active := true, Kt_slope_2 := -0.4 }

/-- A log record that satisfies every invariant except the dampening
range: `dampening = 1.5` (written `mkRat 3 2`). -/
def dampRecord : Dict :=
  [("entropy", PyVal.num (mkRat 1 2)), ("mean_entropy", PyVal.num (mkRat 1 2)),
   ("dampening", PyVal.num (mkRat 3 2)), ("identity_pressure", PyVal.num 0),
   ("active_constraints", PyVal.list [])]

/-- A state that agrees with `ILState.init` on `(K_hist, R_hist,
turn_index)` but differs elsewhere. -/
def c9AltState : ILState :=
  { ILState.init with R_t := 0.7, cooldown_exit_K := 0.5 }

-- ============================================================
-- Helper lemmas
-- ============================================================

lemma lastN_append_right {α : Type _} (n : ℕ) (x y : List α)
    (h : n ≤ y.length) : lastN n (x ++ y) = lastN n y := by
  unfold lastN
  rw [List.length_append, show x.length + y.length - n = x.length + (y.length - n) by omega,
    List.drop_append]

lemma lastN_absorb {α : Type _} (n : ℕ) (a b : List α) :
    lastN n (lastN n a ++ b) = lastN n (a ++ b) := by
  by_cases h : a.length ≤ n
  · have ha : lastN n a = a := by
      unfold lastN
      rw [Nat.sub_eq_zero_of_le h, List.drop_zero]
    rw [ha]
  · push_neg at h
    have hdl : n ≤ (List.drop (a.length - n) a ++ b).length := by
      rw [List.length_append, List.length_drop]; omega
    have h1 : lastN n (a ++ b) = lastN n (List.drop (a.length - n) a ++ b) := by
      conv_lhs => rw [← List.take_append_drop (a.length - n) a, List.append_assoc]
      exact lastN_append_right n _ _ hdl
    have h2 : lastN n (lastN n a ++ b) = lastN n (List.drop (a.length - n) a ++ b) := rfl
    rw [h2, h1]

lemma lastN_length {α : Type _} (n : ℕ) (l : List α) :
    (lastN n l).length = l.length - (l.length - n) := by
  simp [lastN]

lemma roundTo_mono (k : ℕ) {x y : ℚ} (h : x ≤ y) : roundTo k x ≤ roundTo k y := by
  unfold roundTo
  have h2 : round (x * 10 ^ k) ≤ round (y * 10 ^ k) := by
    rw [round_eq, round_eq]
    apply Int.floor_mono
    have : x * 10 ^ k ≤ y * 10 ^ k := by
      apply mul_le_mul_of_nonneg_right h (by positivity)
    linarith
  have h3 : ((round (x * 10 ^ k) : ℤ) : ℚ) ≤ ((round (y * 10 ^ k) : ℤ) : ℚ) := by
    exact_mod_cast h2
  gcongr

lemma foldl_words_lt (l : List ℕ) : ∀ (acc k : ℕ), acc < 2 ^ k →
    l.foldl (fun a h => a * 2 ^ 32 + w32 h) acc < 2 ^ (k + 32 * l.length) := by
  induction l with
  | nil => intro acc k h; simpa using h
  | cons x xs ih =>
    intro acc k h
    have hx : w32 x < 2 ^ 32 := Nat.mod_lt _ (by norm_num)
    have hstep : acc * 2 ^ 32 + w32 x < 2 ^ (k + 32) := by
      calc acc * 2 ^ 32 + w32 x < acc * 2 ^ 32 + 2 ^ 32 := by omega
        _ = (acc + 1) * 2 ^ 32 := by ring
        _ ≤ 2 ^ k * 2 ^ 32 := Nat.mul_le_mul_right _ h
        _ = 2 ^ (k + 32) := (pow_add 2 k 32).symm
    have hrec := ih _ _ hstep
    have hexp : k + 32 + 32 * xs.length = k + 32 * (xs.length + 1) := by ring
    simpa [List.length_cons, hexp] using hrec

lemma sha256Digest_lt (msg : List ℕ) : sha256Digest msg < 2 ^ 256 := by
  unfold sha256Digest
  have h := foldl_words_lt
    ((((toBlocks (sha256Pad msg)).foldl sha256Compress sha256H0).take 8)) 0 0
    (by norm_num)
  have hlen := List.length_take_le 8
    (((toBlocks (sha256Pad msg)).foldl sha256Compress sha256H0))
  calc _ < 2 ^ (0 + 32 * (((toBlocks (sha256Pad msg)).foldl sha256Compress sha256H0).take 8).length) := h
    _ ≤ 2 ^ 256 := Nat.pow_le_pow_right (by norm_num) (by omega)


lemma runGate_eq_runFrom (g : GateState) (texts : List String) :
    runGate g texts = runFrom (g, Option.none) texts := rfl

lemma gateProcess_window (g : GateState) (t : String) :
    (gateProcess g t).1.entropy_window =
      lastN 10 (g.entropy_window ++ [sampleOf t]) := rfl

lemma window_len_pos (g : GateState) (t : String) :
    0 < ((gateProcess g t).1.entropy_window).length := by
  rw [gateProcess_window, lastN_length, List.length_append]
  simp only [List.length_singleton]
  omega

lemma mean_if_eq (w : List ℚ) (h : 0 < w.length) :
    (if w.isEmpty then (0 : ℚ) else w.sum / (w.length : ℚ)) = meanQ w := by
  cases w with
  | nil => simp at h
  | cons a l => simp [meanQ]

lemma gateProcess_mean (g : GateState) (t : String) :
    (gateProcess g t).2.1.mean_entropy =
      roundTo 4 (meanQ ((gateProcess g t).1.entropy_window)) := by
  have h := mean_if_eq ((gateProcess g t).1.entropy_window) (window_len_pos g t)
  calc (gateProcess g t).2.1.mean_entropy
      = roundTo 4 (if ((gateProcess g t).1.entropy_window).isEmpty then (0 : ℚ)
          else ((gateProcess g t).1.entropy_window).sum /
            (((gateProcess g t).1.entropy_window).length : ℚ)) := rfl
    _ = roundTo 4 (meanQ ((gateProcess g t).1.entropy_window)) := congrArg _ h

lemma runFrom_spec : ∀ (texts : List String) (p : GateState × Option Snapshot),
    texts ≠ [] →
    (runFrom p texts).1.entropy_window =
      lastN 10 (p.1.entropy_window ++ texts.map sampleOf) ∧
    (runFrom p texts).2.map Snapshot.mean_entropy =
      some (roundTo 4 (meanQ ((runFrom p texts).1.entropy_window)))
  | [], _, h => absurd rfl h
  | t :: ts, p, _ => by
    rcases eq_or_ne ts [] with hts | hts
    · subst hts
      refine ⟨?_, ?_⟩
      · show (gateProcess p.1 t).1.entropy_window = _
        rw [gateProcess_window]
        rfl
      · show some ((gateProcess p.1 t).2.1.mean_entropy) = _
        rw [gateProcess_mean]
        rfl
    · have ih := runFrom_spec ts ((gateProcess p.1 t).1, some (gateProcess p.1 t).2.1) hts
      have hstep : runFrom p (t :: ts) =
          runFrom ((gateProcess p.1 t).1, some (gateProcess p.1 t).2.1) ts := rfl
      refine ⟨?_, ?_⟩
      · rw [hstep, ih.1, gateProcess_window, lastN_absorb, List.append_assoc]
        simp [List.singleton_append]
      · rw [hstep]
        exact ih.2

-- ============================================================
-- Claim theorems
-- ============================================================

/-- C1: `may_act` returns DENY "invariants not clean" whenever the
invariant status is not CLEAN, for every confidence (including 1.0),
threshold and policy snapshot — the invariant check short-circuits the
confidence and policy checks — and when invariants are clean the
confidence check and then the policy check are applied in that order. -/
theorem may_act_invariants_absolute :
    (∀ (confidence : ℚ) (inv : Dict) (pol : Option Dict) (threshold : ℚ),
      statusNotClean inv = true →
        may_act confidence inv pol threshold =
          { decision := "DENY", reason := "invariants not clean" }) ∧
    (∀ (confidence : ℚ) (inv : Dict) (pol : Option Dict) (threshold : ℚ),
      statusNotClean inv = false →
        may_act confidence inv pol threshold =
          if confidence < threshold then
            { decision := "DENY", reason := "confidence below threshold" }
          else if policyBlocks pol then
            { decision := "DENY", reason := "policy prohibits action" }
          else
            { decision := "ALLOW", reason := "all thresholds satisfied" }) := by
  constructor
  · intro confidence inv pol threshold h
    simp [may_act, h]
  · intro confidence inv pol threshold h
    by_cases hc : confidence < threshold
    · simp [may_act, h, hc]
    · cases pol with
      | none => simp [may_act, h, hc, policyBlocks]
      | some p =>
        by_cases hp : p.isEmpty
        · simp [may_act, h, hc, policyBlocks, hp]
        · by_cases ha : pyTruthy (dgetD p "allow_action" (.bool true))
          · simp [may_act, h, hc, policyBlocks, hp, ha]
          · simp [may_act, h, hc, policyBlocks, hp, ha]

theorem may_act_invariants_absolute_witness :
    statusNotClean ([] : Dict) = true ∧
    may_act 1 ([] : Dict) Option.none 0.75 =
      { decision := "DENY", reason := "invariants not clean" } ∧
    statusNotClean [("status", PyVal.str "CLEAN")] = false ∧
    may_act 1 [("status", PyVal.str "CLEAN")] Option.none 0.75 =
      { decision := "ALLOW", reason := "all thresholds satisfied" } :=
  ⟨by decide,
   may_act_invariants_absolute.1 1 ([] : Dict)
     Option.none 0.75 (by decide),
   by decide,
   by
     have h := may_act_invariants_absolute.2 1 [("status", PyVal.str "CLEAN")]
       Option.none 0.75 (by decide)
     rw [h]
     norm_num [policyBlocks]⟩

/-- C2: a single `update_state` step leaves `cooldown_active` true exactly
when it was already true and the three exit conditions (computed on the
turn's own metrics: incremented turn index, decremented cooldown counter,
the turn's coherence `K_t`) do not all hold; equivalently, the step clears
an active cooldown iff all three hold, never clears it otherwise, and
never sets it. -/
theorem cooldown_clears_iff (st : ILState) (last_tokens : List String)
    (text : String) :
    (update_state st last_tokens text).1.cooldown_active = true ↔
      (st.cooldown_active = true ∧
        ¬(st.turn_index + 1 - st.last_segment_turn ≥ st.cooldown_min_turns ∧
          st.cooldown_turns_left - 1 ≤ 0 ∧
          (estimate_coherence text last_tokens).1 ≥ st.cooldown_exit_K)) := by
  by_cases hcd : st.cooldown_active
  · simp only [update_state, hcd, if_true, hcd]
    by_cases h1 : st.turn_index + 1 - st.last_segment_turn ≥ st.cooldown_min_turns <;>
      by_cases h2 : st.cooldown_turns_left - 1 ≤ 0 <;>
      by_cases h3 : (estimate_coherence text last_tokens).1 ≥ st.cooldown_exit_K <;>
      simp [h1, h2, h3]
  · simp only [update_state, Bool.not_eq_true] at hcd
    simp [update_state, hcd]


/-- C3 counterexample: on the spec's example state `should_segment`
returns false — the saturation trigger fails because the first of the
last three `K_hist` entries, 0.5, is not below 0.45 (and the
acceleration trigger fails since -0.1 is not below -0.15). -/
theorem should_segment_c3_false :
    should_segment c3State = false ∧ saturation_trigger c3State = false ∧
      acceleration_trigger c3State = false := by
  have hacc : acceleration_trigger c3State = false := by
    norm_num [acceleration_trigger, c3State, ILState.init]
  have hsat : saturation_trigger c3State = false := by
    norm_num [saturation_trigger, c3State, ILState.init, lastN]
  have hcd : c3State.cooldown_active = false := rfl
  refine ⟨?_, hsat, hacc⟩
  simp [should_segment, hcd, hacc, hsat]


/-- C3 amended: with the sustained-low-coherence history `[0.4, 0.4,
0.3]`, `should_segment` fires, and it fires via the saturation trigger
(the acceleration trigger is false there). -/
theorem should_segment_saturation_true :
    should_segment c3AmendedState = true ∧
      saturation_trigger c3AmendedState = true ∧
      acceleration_trigger c3AmendedState = false := by
  have hacc : acceleration_trigger c3AmendedState = false := by
    norm_num [acceleration_trigger, c3AmendedState, ILState.init]
  have hsat : saturation_trigger c3AmendedState = true := by
    norm_num [saturation_trigger, c3AmendedState, ILState.init, lastN]
  have hcd : c3AmendedState.cooldown_active = false := rfl
  refine ⟨?_, hsat, hacc⟩
  simp [should_segment, hcd, hacc, hsat]

/-- C4: with cooldown active, `should_segment` returns true only if the
base (acceleration-or-saturation) trigger fires and additionally
`Kt_slope_2 < -0.30`; and on the example state with cooldown active and
slope -0.20 it returns false. -/
theorem cooldown_requires_steeper_slope :
    (∀ st : ILState, st.cooldown_active = true → should_segment st = true →
      (acceleration_trigger st || saturation_trigger st) = true ∧
        st.Kt_slope_2 < -0.30) ∧
    should_segment { c3State with cooldown_active := true, Kt_slope_2 := -0.2 }
      = false := by
  constructor
  · intro st hcd hseg
    simp only [should_segment, hcd, if_true, Bool.and_eq_true,
      decide_eq_true_eq] at hseg
    exact hseg
  · norm_num [should_segment, acceleration_trigger, saturation_trigger,
      c3State, ILState.init, lastN]


theorem cooldown_requires_steeper_slope_witness :
    c4WitnessState.cooldown_active = true ∧
      should_segment c4WitnessState = true ∧
      ((acceleration_trigger c4WitnessState ||
          saturation_trigger c4WitnessState) = true ∧
        c4WitnessState.Kt_slope_2 < -0.30) := by
  have hseg : should_segment c4WitnessState = true := by
    norm_num [should_segment, acceleration_trigger, saturation_trigger,
      c4WitnessState, c3State, ILState.init, lastN]
  exact ⟨rfl, hseg, cooldown_requires_steeper_slope.1 c4WitnessState rfl hseg⟩

/-- C5: `compute_confidence` equals the spec formula — round to three
decimals of `clamp01(1 - min(entropy,1)*0.4 - (0.2 if stabilized))`,
with the documented defaults for absent inputs, forced to 0 whenever the
invariant status is present and not clean. -/
theorem compute_confidence_formula (snap : Option Snapshot)
    (inv : Option Dict) :
    compute_confidence snap inv =
      if invClean inv then
        roundTo 3 (clamp01 (1 - min (snapEntropy snap) 1 * 0.4 -
          (if snapStabilized snap then 0.2 else 0)))
      else 0 := by
  have hz : roundTo 3 (0 : ℚ) = 0 := by
    norm_num [roundTo]
  rcases snap with _ | s <;> rcases inv with _ | d
  · simp [compute_confidence, invClean, snapEntropy, snapStabilized,
      clamp01, min_comm, sub_zero]
  · cases hc : statusIsClean d
    · simp [compute_confidence, invClean, snapEntropy, snapStabilized, hc, hz]
    · simp [compute_confidence, invClean, snapEntropy, snapStabilized, hc,
        clamp01, min_comm, sub_zero]
  · by_cases hs : "stabilize" ∈ s.active_constraints <;>
      simp [compute_confidence, invClean, snapEntropy, snapStabilized, hs,
        clamp01, min_comm, sub_zero]
  · cases hc : statusIsClean d
    · simp [compute_confidence, invClean, snapEntropy, snapStabilized, hc, hz]
    · by_cases hs : "stabilize" ∈ s.active_constraints <;>
        simp [compute_confidence, invClean, snapEntropy, snapStabilized,
          hc, hs, clamp01, min_comm, sub_zero]

/-- C6: holding the stabilize flag (and the snapshot's other fields) and
the invariant status fixed, `compute_confidence` is non-increasing in the
entropy input; and whenever the invariant status is present and not
clean, the result is exactly 0. -/
theorem confidence_monotone_and_zero :
    (∀ (en ip : ℚ) (ac : List String) (inv : Option Dict) (e₁ e₂ : ℚ),
      e₁ ≤ e₂ →
        compute_confidence (some ⟨en, e₂, ac, ip⟩) inv ≤
          compute_confidence (some ⟨en, e₁, ac, ip⟩) inv) ∧
    (∀ (snap : Option Snapshot) (d : Dict), statusIsClean d = false →
      compute_confidence snap (some d) = 0) := by
  constructor
  · intro en ip ac inv e₁ e₂ h
    have hcore : ∀ pen : ℚ,
        1 - min e₂ 1 * 0.4 - pen ≤ 1 - min e₁ 1 * 0.4 - pen := by
      intro pen
      have h1 : min e₁ 1 ≤ min e₂ 1 := min_le_min h (le_refl 1)
      have h2 : min e₁ 1 * 0.4 ≤ min e₂ 1 * 0.4 :=
        mul_le_mul_of_nonneg_right h1 (by norm_num)
      linarith
    have hmono : ∀ c₂ c₁ : ℚ, c₂ ≤ c₁ →
        roundTo 3 (max 0 (min c₂ 1)) ≤ roundTo 3 (max 0 (min c₁ 1)) := by
      intro c₂ c₁ hc
      exact roundTo_mono 3 (max_le_max (le_refl 0) (min_le_min hc (le_refl 1)))
    simp only [compute_confidence]
    rcases inv with _ | d
    · cases hs : ac.contains "stabilize" <;> simp only [hs]
      · simpa using hmono _ _ (by simpa using hcore 0)
      · exact hmono _ _ (hcore 0.2)
    · cases hc : statusIsClean d
      · simp [hc]
      · cases hs : ac.contains "stabilize" <;> simp only [hs, hc]
        · simpa using hmono _ _ (by simpa using hcore 0)
        · exact hmono _ _ (hcore 0.2)
  · intro snap d hd
    rcases snap with _ | s <;>
      simp [compute_confidence, hd, roundTo]

theorem confidence_monotone_and_zero_witness :
    ((0 : ℚ) ≤ 1/2) ∧
    compute_confidence (some ⟨0, 1/2, [], 0⟩) Option.none ≤
      compute_confidence (some ⟨0, 0, [], 0⟩) Option.none ∧
    statusIsClean [("status", PyVal.str "VIOLATED")] = false ∧
    compute_confidence Option.none (some [("status", PyVal.str "VIOLATED")])
      = 0 :=
  ⟨by norm_num,
   confidence_monotone_and_zero.1 0 0 [] Option.none 0 (1/2) (by norm_num),
   by decide,
   confidence_monotone_and_zero.2 Option.none _ (by decide)⟩

/-- C7 counterexample: after one `process` call on `"aaa"` the window
holds the single sample 1/3, but the snapshot's `mean_entropy` field is
the four-decimal rounding 0.3333, not the arithmetic mean 1/3 — so the
field does not equal the mean of the last `min(10,N)` samples. -/
theorem mean_entropy_field_rounds :
    (runGate initGate ["aaa"]).1.entropy_window = ["aaa"].map sampleOf ∧
    (runGate initGate ["aaa"]).2.map Snapshot.mean_entropy ≠
      some (meanQ (lastN 10 (["aaa"].map sampleOf))) := by
  have h0 : runGate initGate ["aaa"] =
      ((gateProcess initGate "aaa").1, some (gateProcess initGate "aaa").2.1) := rfl
  have hwin : (gateProcess initGate "aaa").1.entropy_window = [sampleOf "aaa"] := by
    rw [gateProcess_window]
    rfl
  have hsample : sampleOf "aaa" = (1 : ℚ)/3 := by
    have hstrip : pyStrip "aaa" = "aaa" := by decide
    have hd : "aaa".toList.dedup.length = 1 := by decide
    have hl : "aaa".toList.length = 3 := by decide
    have hne : ("aaa" : String) ≠ "" := by decide
    norm_num [sampleOf, measure_entropy, hstrip, hd, hl, hne]
  constructor
  · rw [h0]
    exact hwin
  · rw [h0]
    have hmean : (gateProcess initGate "aaa").2.1.mean_entropy =
        roundTo 4 (meanQ [sampleOf "aaa"]) := by
      rw [gateProcess_mean, hwin]
    show some ((gateProcess initGate "aaa").2.1.mean_entropy) ≠ _
    rw [hmean, hsample]
    have hfloor : round ((1 : ℚ)/3/1 * 10 ^ 4) = 3333 := by
      norm_num [round_eq, Int.floor_eq_iff]
    simp only [ne_eq, Option.some.injEq]
    intro hcontra
    rw [show lastN 10 (["aaa"].map sampleOf) = [sampleOf "aaa"] from rfl,
      hsample] at hcontra
    rw [show meanQ [(1 : ℚ)/3] = (1 : ℚ)/3/1 from by
      simp [meanQ]] at hcontra
    rw [roundTo, hfloor] at hcontra
    norm_num at hcontra

/-- C7 amended: after N ≥ 1 calls the window holds exactly the last
`min(10,N)` entropy samples in FIFO order, and the N-th snapshot's
`mean_entropy` equals the arithmetic mean of those samples rounded to
four decimal places. -/
theorem window_and_mean (texts : List String) (h : texts ≠ []) :
    (runGate initGate texts).1.entropy_window = lastN 10 (texts.map sampleOf) ∧
    (runGate initGate texts).2.map Snapshot.mean_entropy =
      some (roundTo 4 (meanQ (lastN 10 (texts.map sampleOf)))) := by
  have hs := runFrom_spec texts (initGate, Option.none) h
  rw [runGate_eq_runFrom]
  have hw : (runFrom (initGate, Option.none) texts).1.entropy_window =
      lastN 10 (texts.map sampleOf) := by
    have h1 := hs.1
    simpa [initGate] using h1
  refine ⟨hw, ?_⟩
  rw [hs.2, hw]

theorem window_and_mean_witness :
    (runGate initGate ["ab"]).1.entropy_window = lastN 10 (["ab"].map sampleOf) ∧
    (runGate initGate ["ab"]).2.map Snapshot.mean_entropy =
      some (roundTo 4 (meanQ (lastN 10 (["ab"].map sampleOf)))) :=
  window_and_mean ["ab"] (by simp)


/-- C8: `verify` on an empty log returns the unverifiable status (not
CLEAN); on the one-record log whose only defect is `dampening = 1.5` it
scans every record against every invariant and reports exactly one
violation, naming `dampening_range` for record 0. -/
theorem verify_empty_and_dampening :
    verify [] = VerifyOutcome.unverifiable ∧
    verify [dampRecord] = VerifyOutcome.violations [(0, "dampening_range")] := by
  constructor
  · rfl
  · decide

/-- C9 counterexample: the claim "trace_hash differs whenever any one
element of (K_hist, R_hist, turn_index) changes" is false — the digest is
truncated to 16 hex characters, so the map from triples to digests
factors through the finite space `Fin (2^256)` of full digests while the
triples (varying `turn_index` alone) are infinite; by pigeonhole two
distinct triples share a `trace_hash`. -/
theorem traceHash_not_injective :
    ¬ (∀ (K₁ R₁ : List ℚ) (t₁ : ℤ) (K₂ R₂ : List ℚ) (t₂ : ℤ),
        (K₁, R₁, t₁) ≠ (K₂, R₂, t₂) →
          traceHash K₁ R₁ t₁ ≠ traceHash K₂ R₂ t₂) := by
  intro hinj
  have hlt : ∀ n : ℕ,
      sha256Digest (strToBytes (jsonTriple [] [] (n : ℤ))) < 2 ^ 256 :=
    fun n => sha256Digest_lt _
  obtain ⟨a, b, hab, heq⟩ :=
    Finite.exists_ne_map_eq_of_infinite
      (fun n : ℕ =>
        (⟨sha256Digest (strToBytes (jsonTriple [] [] (n : ℤ))), hlt n⟩ :
          Fin (2 ^ 256)))
  have hdig : sha256Digest (strToBytes (jsonTriple [] [] (a : ℤ))) =
      sha256Digest (strToBytes (jsonTriple [] [] (b : ℤ))) :=
    congrArg Fin.val heq
  have hhash : traceHash [] [] (a : ℤ) = traceHash [] [] (b : ℤ) := by
    unfold traceHash
    rw [hdig]
  have hne : (([] : List ℚ), ([] : List ℚ), (a : ℤ)) ≠
      (([] : List ℚ), ([] : List ℚ), (b : ℤ)) := by
    simp only [ne_eq, Prod.mk.injEq, true_and]
    exact fun hc => hab (by exact_mod_cast hc)
  exact hinj [] [] (a : ℤ) [] [] (b : ℤ) hne hhash

/-- C9 amended: the trace hash set by `update_state` is a pure
deterministic function of the post-update `(K_hist, R_hist, turn_index)`
triple — two independently built states whose updates end with the same
triple carry bit-identical `trace_hash` values, whatever their other
fields or input texts were (distinct triples, however, are not guaranteed
distinct hashes; see the pigeonhole counterexample). -/
theorem traceHash_function_of_triple (s₁ s₂ : ILState)
    (l₁ l₂ : List String) (x₁ x₂ : String)
    (hK : (update_state s₁ l₁ x₁).1.K_hist = (update_state s₂ l₂ x₂).1.K_hist)
    (hR : (update_state s₁ l₁ x₁).1.R_hist = (update_state s₂ l₂ x₂).1.R_hist)
    (ht : (update_state s₁ l₁ x₁).1.turn_index =
      (update_state s₂ l₂ x₂).1.turn_index) :
    (update_state s₁ l₁ x₁).1.trace_hash =
      (update_state s₂ l₂ x₂).1.trace_hash := by
  have h₁ : (update_state s₁ l₁ x₁).1.trace_hash =
      traceHash (update_state s₁ l₁ x₁).1.K_hist
        (update_state s₁ l₁ x₁).1.R_hist
        (update_state s₁ l₁ x₁).1.turn_index := by
    simp only [update_state]
  have h₂ : (update_state s₂ l₂ x₂).1.trace_hash =
      traceHash (update_state s₂ l₂ x₂).1.K_hist
        (update_state s₂ l₂ x₂).1.R_hist
        (update_state s₂ l₂ x₂).1.turn_index := by
    simp only [update_state]
  rw [h₁, h₂, hK, hR, ht]


set_option maxRecDepth 8192 in
theorem traceHash_function_of_triple_witness :
    (update_state ILState.init [] "hello.").1.trace_hash =
      (update_state c9AltState [] "hello.").1.trace_hash :=
  traceHash_function_of_triple ILState.init c9AltState [] [] "hello." "hello."
    rfl rfl rfl

/-- C10: on blank (empty or all-whitespace) text `estimate_coherence`
returns 0.0 and leaves the carried previous-call token set unchanged, so
the next call's overlap penalty is computed against the token set of the
last non-blank input. -/
theorem estimate_coherence_blank (text : String) (last_tokens : List String)
    (h : pyStrip text = "") :
    estimate_coherence text last_tokens = (0, last_tokens) ∧
    ∀ next : String,
      estimate_coherence next (estimate_coherence text last_tokens).2 =
        estimate_coherence next last_tokens := by
  have h1 : estimate_coherence text last_tokens = (0, last_tokens) := by
    simp [estimate_coherence, h]
  exact ⟨h1, fun next => by rw [h1]⟩

theorem estimate_coherence_blank_witness :
    pyStrip " \t\n " = "" ∧
    estimate_coherence " \t\n " ["alpha", "beta"] = (0, ["alpha", "beta"]) :=
  ⟨by decide, (estimate_coherence_blank " \t\n " ["alpha", "beta"] (by decide)).1⟩
